import Mathlib

/-!
# Verification of the Instapaper bookmark organizer (`src/main.py`)

A shallow embedding of the program's core, faithful to the Python source:

* `api_post` — the retrying API wrapper (`main.py`, `api_post`): a `for
  attempt in range(6)` loop; transient statuses (429/500/502/503/504)
  sleep `0.6 * 2**attempt` seconds and `continue`; any exception raised
  inside the body (including the `HTTPError` that `raise_for_status`
  throws for every status ≥ 400, and a JSON decode error on an
  unparseable body) is caught, recorded in `last_err`, slept on and
  retried; a run through all 6 attempts ends in `raise SystemExit`.
  Delays are modelled in deciseconds (`0.6 * 2**n` s = `6 * 2^n` ds) so
  no floating point is needed.  The network is modelled as a schedule
  assigning each attempt its outcome.
* `suggest_folder`, rule-table operations, and JSON persistence
  (`load_json` / `save_json`).
* the interactive session loop of `main` as a step function over the
  page of bookmarks, the rule table, a scripted input stream and a move
  outcome oracle, producing a trace of the observable effects (items
  presented, suggestions shown, move calls, rule-file writes, reported
  diagnostics).
-/

namespace InstaOrg

/-- A parsed JSON value, as returned by the Python stdlib `json` module —
only the shapes the program traffics in (numbers, strings, objects). -/
inductive JVal where
  | jint (n : Int)
  | jstr (s : String)
  | jobj (fields : List (String × JVal))

/-- Errors observable inside one attempt of `api_post`:
a transport-level exception raised by `requests.post` itself (timeout,
connection error), the `HTTPError` raised by `raise_for_status` for a
status ≥ 400, or a decode error from `r.json()` on a malformed body. -/
inductive ApiErr where
  | transport (msg : String)
  | httpStatus (code : Nat)
  | jsonDecode
deriving DecidableEq, Repr

/-- The body of an HTTP response: empty text (`r.text` falsy), text that
parses as JSON, or text that `r.json()` fails on. -/
inductive Body where
  | empty
  | json (v : JVal)
  | malformed

/-- What one attempt of `api_post` observes: either `requests.post`
raises (a transport fault) or it returns a response with a status code
and a body. -/
inductive Outcome where
  | fault (e : ApiErr)
  | response (status : Nat) (body : Body)

/-- `r.status_code in (429, 500, 502, 503, 504)` — the statuses the loop
special-cases as transient. -/
def transientStatus (s : Nat) : Bool :=
  s == 429 || s == 500 || s == 502 || s == 503 || s == 504

/-- What the loop body does with one attempt's outcome:
return a parsed value, retry keeping `last_err` (the transient-status
`continue` path), or retry setting `last_err` (the `except` path). -/
inductive AttemptRes where
  | success (v : JVal)
  | retryKeep
  | retrySet (e : ApiErr)

/-- One iteration of the `for attempt in range(6)` body of `api_post`,
given the attempt's outcome.  `raise_for_status` throws for any status
≥ 400 not already taken by the transient branch, and that exception is
caught by the blanket `except`; `return r.json() if r.text else {}`
parses the body, an empty body yielding the empty dict. -/
def attemptStep : Outcome → AttemptRes
  | .fault e => .retrySet e
  | .response s b =>
    if transientStatus s then .retryKeep
    else if 400 ≤ s then .retrySet (.httpStatus s)
    else match b with
      | .empty => .success (.jobj [])
      | .json v => .success v
      | .malformed => .retrySet .jsonDecode

/-- The parsed value an attempt returns, if it succeeds. -/
def succVal (o : Outcome) : Option JVal :=
  match attemptStep o with
  | .success v => some v
  | _ => none

/-- Whether an attempt succeeds (returns from `api_post`). -/
def succeeds (o : Outcome) : Bool :=
  (succVal o).isSome

/-- The error an attempt stores into `last_err`, if any (transient
statuses `continue` without touching `last_err`). -/
def errOf (o : Outcome) : Option ApiErr :=
  match attemptStep o with
  | .retrySet e => some e
  | _ => none

/-- The value of `last_err` after running attempts
`start, …, start+fuel-1` against the schedule, starting from `acc`. -/
def lastErrFold (sched : Nat → Outcome) (start fuel : Nat) (acc : Option ApiErr) :
    Option ApiErr :=
  match fuel with
  | 0 => acc
  | f + 1 => lastErrFold sched (start + 1) f ((errOf (sched start)).elim acc some)

/-- The observable result of a whole `api_post` call: the returned value
or the fatal `SystemExit` carrying `last_err`; how many attempts were
made; and the sleeps performed, in order, in deciseconds
(`time.sleep(0.6 * 2**attempt)` = `6 * 2^attempt` ds). -/
structure ApiRun where
  result : Except (Option ApiErr) JVal
  attempts : Nat
  sleeps : List Nat

/-- The retry loop of `api_post` from attempt `start` with `fuel`
iterations left and `last_err = lastErr`. -/
def apiPostAux (sched : Nat → Outcome) : Nat → Nat → Option ApiErr → ApiRun
  | _, 0, lastErr => ⟨.error lastErr, 0, []⟩
  | n, fuel + 1, lastErr =>
    match attemptStep (sched n) with
    | .success v => ⟨.ok v, 1, []⟩
    | .retryKeep =>
      let r := apiPostAux sched (n + 1) fuel lastErr
      ⟨r.result, r.attempts + 1, 6 * 2 ^ n :: r.sleeps⟩
    | .retrySet e =>
      let r := apiPostAux sched (n + 1) fuel (some e)
      ⟨r.result, r.attempts + 1, 6 * 2 ^ n :: r.sleeps⟩

/-- `api_post` (`main.py` lines 124–140): run the 6-attempt loop from a
fresh `last_err = None` against a schedule of attempt outcomes. -/
def api_post (sched : Nat → Outcome) : ApiRun :=
  apiPostAux sched 0 6 none

/-- The predicate the spec's retry condition names: the attempt's
response status is transient, or the attempt raised a transport-level
fault (an exception out of `requests.post` itself). -/
def transientOrFault : Outcome → Bool
  | .fault _ => true
  | .response s _ => transientStatus s

theorem apiPostAux_attempts_le (sched : Nat → Outcome) :
    ∀ (fuel start : Nat) (le : Option ApiErr),
      (apiPostAux sched start fuel le).attempts ≤ fuel := by
  intro fuel
  induction fuel with
  | zero => intro start le; simp [apiPostAux]
  | succ f ih =>
    intro start le
    simp only [apiPostAux]
    cases h : attemptStep (sched start) with
    | success v => simp
    | retryKeep => simpa using Nat.succ_le_succ (ih (start + 1) le)
    | retrySet e => simpa using Nat.succ_le_succ (ih (start + 1) (some e))

theorem apiPostAux_sleeps_get (sched : Nat → Outcome) :
    ∀ (fuel start : Nat) (le : Option ApiErr) (n : Nat) (x : Nat),
      (apiPostAux sched start fuel le).sleeps.get? n = some x → x = 6 * 2 ^ (start + n) := by
  intro fuel
  induction fuel with
  | zero => intro start le n x h; simp [apiPostAux] at h
  | succ f ih =>
    intro start le n x h
    simp only [apiPostAux] at h
    cases hs : attemptStep (sched start) with
    | success v => rw [hs] at h; simp at h
    | retryKeep =>
      rw [hs] at h
      cases n with
      | zero => simp at h; simp [h]
      | succ m =>
        simp only [List.get?_cons_succ] at h
        have := ih (start + 1) le m x h
        simpa [Nat.add_assoc, Nat.add_comm 1 m] using this
    | retrySet e =>
      rw [hs] at h
      cases n with
      | zero => simp at h; simp [h]
      | succ m =>
        simp only [List.get?_cons_succ] at h
        have := ih (start + 1) (some e) m x h
        simpa [Nat.add_assoc, Nat.add_comm 1 m] using this

theorem apiPostAux_success (sched : Nat → Outcome) :
    ∀ (k fuel start : Nat) (le : Option ApiErr) (v : JVal), k < fuel →
      (∀ j, j < k → succeeds (sched (start + j)) = false) →
      succVal (sched (start + k)) = some v →
      (apiPostAux sched start fuel le).result = .ok v ∧
        (apiPostAux sched start fuel le).attempts = k + 1 ∧
        (apiPostAux sched start fuel le).sleeps.length = k := by
  intro k
  induction k with
  | zero =>
    intro fuel start le v hk _ hv
    match fuel, hk with
    | f + 1, _ =>
      simp only [apiPostAux]
      rw [Nat.add_zero] at hv
      unfold succVal at hv
      cases hs : attemptStep (sched start) with
      | success w => rw [hs] at hv; simp at hv; simp [hv]
      | retryKeep => rw [hs] at hv; simp at hv
      | retrySet e => rw [hs] at hv; simp at hv
  | succ m ih =>
    intro fuel start le v hk hfail hv
    match fuel, hk with
    | f + 1, hk =>
      have h0 : succeeds (sched start) = false := by
        simpa using hfail 0 (Nat.succ_pos m)
      have hfail' : ∀ j, j < m → succeeds (sched (start + 1 + j)) = false := by
        intro j hj
        have := hfail (j + 1) (Nat.succ_lt_succ hj)
        simpa [Nat.add_assoc, Nat.add_comm 1 j] using this
      have hv' : succVal (sched (start + 1 + m)) = some v := by
        have : start + 1 + m = start + (m + 1) := by omega
        rw [this]; exact hv
      have hm : m < f := Nat.lt_of_succ_lt_succ hk
      unfold succeeds at h0
      simp only [apiPostAux]
      cases hs : attemptStep (sched start) with
      | success w => unfold succVal at h0; rw [hs] at h0; simp at h0
      | retryKeep =>
        have := ih f (start + 1) le v hm hfail' hv'
        simpa using this
      | retrySet e =>
        have := ih f (start + 1) (some e) v hm hfail' hv'
        simpa using this

theorem apiPostAux_allFail (sched : Nat → Outcome) :
    ∀ (fuel start : Nat) (le : Option ApiErr),
      (∀ j, j < fuel → succeeds (sched (start + j)) = false) →
      (apiPostAux sched start fuel le).result = .error (lastErrFold sched start fuel le) ∧
        (apiPostAux sched start fuel le).attempts = fuel ∧
        (apiPostAux sched start fuel le).sleeps.length = fuel := by
  intro fuel
  induction fuel with
  | zero => intro start le _; simp [apiPostAux, lastErrFold]
  | succ f ih =>
    intro start le hfail
    have h0 : succeeds (sched start) = false := by
      simpa using hfail 0 (Nat.succ_pos f)
    have hfail' : ∀ j, j < f → succeeds (sched (start + 1 + j)) = false := by
      intro j hj
      have := hfail (j + 1) (Nat.succ_lt_succ hj)
      simpa [Nat.add_assoc, Nat.add_comm 1 j] using this
    simp only [apiPostAux, lastErrFold]
    unfold succeeds succVal at h0
    cases hs : attemptStep (sched start) with
    | success w => rw [hs] at h0; simp at h0
    | retryKeep =>
      have := ih (start + 1) le hfail'
      have herr : errOf (sched start) = none := by unfold errOf; rw [hs]
      simpa [herr] using this
    | retrySet e =>
      have := ih (start + 1) (some e) hfail'
      have herr : errOf (sched start) = some e := by unfold errOf; rw [hs]
      simpa [herr] using this

theorem apiPostAux_attempts_pos (sched : Nat → Outcome) :
    ∀ (fuel start : Nat) (le : Option ApiErr), 0 < fuel →
      1 ≤ (apiPostAux sched start fuel le).attempts := by
  intro fuel start le hf
  match fuel, hf with
  | f + 1, _ =>
    simp only [apiPostAux]
    cases attemptStep (sched start) <;> simp

theorem apiPostAux_retrySet_attempts (sched : Nat → Outcome) (start fuel : Nat)
    (le : Option ApiErr) (e : ApiErr) (h : attemptStep (sched start) = .retrySet e) :
    (apiPostAux sched start (fuel + 1) le).attempts =
      (apiPostAux sched (start + 1) fuel (some e)).attempts + 1 := by
  simp only [apiPostAux, h]

theorem lastErrFold_const (sched : Nat → Outcome) (e : ApiErr)
    (h : ∀ n, errOf (sched n) = some e) :
    ∀ (fuel start : Nat) (acc : Option ApiErr), 0 < fuel →
      lastErrFold sched start fuel acc = some e := by
  intro fuel
  induction fuel with
  | zero => intro start acc hf; omega
  | succ f ih =>
    intro start acc _
    simp only [lastErrFold, h start, Option.elim]
    cases f with
    | zero => simp [lastErrFold]
    | succ g => exact ih (start + 1) (some e) (Nat.succ_pos g)

/-- C1 (amended).  `api_post` makes at most 6 total attempts; the n-th
delay slept (0-indexed) is `0.6 * 2^n` seconds (`6 * 2^n` deciseconds);
within the attempts made, an attempt is followed by a backoff-and-retry
exactly when it does not succeed — where besides the transient statuses
(429/500/502/503/504) and transport-level faults this also covers every
other failure status ≥ 400 (whose `raise_for_status` exception the
blanket `except` catches) and an unparseable body; a success on attempt
k returns that attempt's parsed result (the empty dict for an empty
body) with exactly k+1 attempts made; and when all 6 attempts fail the
call raises `SystemExit` carrying the last recorded error. -/
theorem api_post_retry_policy (sched : Nat → Outcome) :
    (api_post sched).attempts ≤ 6 ∧
      (∀ n x, (api_post sched).sleeps.get? n = some x → x = 6 * 2 ^ n) ∧
      (∀ n, n < (api_post sched).attempts →
        (n < (api_post sched).sleeps.length ↔ succeeds (sched n) = false)) ∧
      (∀ k v, k < 6 → (∀ j, j < k → succeeds (sched j) = false) →
        succVal (sched k) = some v →
        (api_post sched).result = .ok v ∧ (api_post sched).attempts = k + 1) ∧
      ((∀ j, j < 6 → succeeds (sched j) = false) →
        (api_post sched).result = .error (lastErrFold sched 0 6 none) ∧
          (api_post sched).attempts = 6) := by
  refine ⟨apiPostAux_attempts_le sched 6 0 none, ?_, ?_, ?_, ?_⟩
  · intro n x h
    simpa using apiPostAux_sleeps_get sched 6 0 none n x h
  · intro n hn
    by_cases hex : ∃ k, k < 6 ∧ succeeds (sched k) = true
    · classical
      obtain ⟨k₀, hk₀⟩ := hex
      have hfind := Nat.find_spec (⟨k₀, hk₀⟩ : ∃ k, k < 6 ∧ succeeds (sched k) = true)
      set m := Nat.find (⟨k₀, hk₀⟩ : ∃ k, k < 6 ∧ succeeds (sched k) = true) with hm
      have hmin : ∀ j, j < m → succeeds (sched j) = false := by
        intro j hj
        have := Nat.find_min (⟨k₀, hk₀⟩ : ∃ k, k < 6 ∧ succeeds (sched k) = true) hj
        by_contra hc
        exact this ⟨lt_trans hj hfind.1, by simpa using hc⟩
      obtain ⟨v, hv⟩ : ∃ v, succVal (sched m) = some v := by
        have := hfind.2
        unfold succeeds at this
        exact Option.isSome_iff_exists.mp this
      have hrun := apiPostAux_success sched m 6 0 none v hfind.1
        (by simpa using hmin) (by simpa using hv)
      have hatt : (api_post sched).attempts = m + 1 := hrun.2.1
      have hlen : (api_post sched).sleeps.length = m := hrun.2.2
      rw [hatt] at hn
      rw [hlen]
      constructor
      · intro hlt; exact hmin n hlt
      · intro hf
        rcases Nat.lt_succ_iff_lt_or_eq.mp hn with h' | h'
        · exact h'
        · rw [h'] at hf; rw [hf] at hfind; exact absurd hfind.2 (by simp)
    · push_neg at hex
      have hall : ∀ j, j < 6 → succeeds (sched j) = false := by
        intro j hj
        have := hex j
        simpa [hj] using fun hc => (this hj) hc
      have hrun := apiPostAux_allFail sched 6 0 none (by simpa using hall)
      have hatt : (api_post sched).attempts = 6 := hrun.2.1
      have hlen : (api_post sched).sleeps.length = 6 := hrun.2.2
      rw [hatt] at hn
      rw [hlen]
      simp [hn, hall n hn]
  · intro k v hk hfail hv
    have := apiPostAux_success sched k 6 0 none v hk (by simpa using hfail) (by simpa using hv)
    exact ⟨this.1, this.2.1⟩
  · intro hall
    have := apiPostAux_allFail sched 6 0 none (by simpa using hall)
    exact ⟨this.1, this.2.1⟩

/-- Witness for C1's amended theorem: a schedule that fails with a 503
and a timeout and then succeeds on the third attempt with a parsed
body; `api_post` returns that value after exactly 3 attempts. -/
def schedW : Nat → Outcome := fun n =>
  match n with
  | 0 => .response 503 .empty
  | 1 => .fault (.transport "timeout")
  | _ => .response 200 (.json (.jint 7))

theorem api_post_retry_policy_witness :
    (api_post schedW).result = .ok (.jint 7) ∧ (api_post schedW).attempts = 3 :=
  (api_post_retry_policy schedW).2.2.2.1 2 (.jint 7)
    (by decide)
    (by intro j hj; interval_cases j <;> rfl)
    rfl

/-- Counterexample to C1 as stated: on a schedule where every attempt
yields HTTP 400 (no transient status, no transport-level fault), the
claim says the attempt is not retried, yet the first attempt is
followed by a backoff (the sleeps list is non-empty) and the loop runs
through all 6 attempts. -/
def schedBadRequest : Nat → Outcome := fun _ => .response 400 .empty

theorem api_post_retry_iff_counterexample :
    0 < (api_post schedBadRequest).sleeps.length ∧
      transientOrFault (schedBadRequest 0) = false ∧
      (api_post schedBadRequest).attempts = 6 := by
  refine ⟨?_, rfl, rfl⟩
  show 0 < (6 : Nat)
  decide

/-- C2 (amended).  An attempt of `api_post` that completes with a
non-transient failure status (a 4xx other than 429 — and likewise any
failure status outside the transient five) does NOT end the attempt
sequence: `raise_for_status` raises an `HTTPError` that the blanket
`except` catches and retries like a transport fault.  Only after all 6
attempts does the failure propagate, as a fatal `SystemExit` carrying
that HTTP error. -/
theorem api_post_nontransient_retry_exhausts (s : Nat) (b : Body)
    (h4 : 400 ≤ s) (ht : transientStatus s = false) :
    attemptStep (.response s b) = .retrySet (.httpStatus s) ∧
      (∀ sched : Nat → Outcome, sched 0 = .response s b →
        2 ≤ (api_post sched).attempts) ∧
      (api_post (fun _ => .response s b)).attempts = 6 ∧
      (api_post (fun _ => .response s b)).result = .error (some (.httpStatus s)) := by
  have hstep : attemptStep (.response s b) = .retrySet (.httpStatus s) := by
    simp [attemptStep, ht, h4]
  have hsucc : succeeds (Outcome.response s b) = false := by
    unfold succeeds succVal
    rw [hstep]
    rfl
  have hall : ∀ j, j < 6 → succeeds ((fun _ => Outcome.response s b) j) = false :=
    fun j _ => hsucc
  have hrun := apiPostAux_allFail (fun _ => .response s b) 6 0 none (by simpa using hall)
  refine ⟨hstep, ?_, hrun.2.1, ?_⟩
  · intro sched h0
    unfold api_post
    show 2 ≤ (apiPostAux sched 0 (5 + 1) none).attempts
    rw [apiPostAux_retrySet_attempts sched 0 5 none (.httpStatus s) (by rw [h0]; exact hstep)]
    have h1 := apiPostAux_attempts_pos sched 5 (0 + 1) (some (.httpStatus s)) (by decide)
    omega
  · show (apiPostAux (fun _ => Outcome.response s b) 0 6 none).result = _
    rw [hrun.1]
    have : lastErrFold (fun _ => Outcome.response s b) 0 6 none = some (.httpStatus s) := by
      refine lastErrFold_const _ _ ?_ 6 0 none (by decide)
      intro n
      unfold errOf
      rw [hstep]
    rw [this]

/-- Witness for C2's amended theorem at status 404 with an empty body:
the 404 is classified for retry, and six 404s in a row exhaust the
budget and abort carrying the HTTP 404 error. -/
theorem api_post_nontransient_retry_exhausts_witness :
    attemptStep (.response 404 .empty) = .retrySet (.httpStatus 404) ∧
      (∀ sched : Nat → Outcome, sched 0 = .response 404 .empty →
        2 ≤ (api_post sched).attempts) ∧
      (api_post (fun _ => .response 404 .empty)).attempts = 6 ∧
      (api_post (fun _ => .response 404 .empty)).result =
        .error (some (.httpStatus 404)) :=
  api_post_nontransient_retry_exhausts 404 .empty (by decide) (by decide)

/-- Counterexample to C2 as stated: the claim says an attempt with
non-transient failure status 404 ends the attempt sequence with no
further retry attempts (so exactly 1 attempt); the code instead makes
all 6 attempts. -/
def sched404 : Nat → Outcome := fun _ => .response 404 .empty

theorem api_post_nontransient_counterexample :
    transientStatus 404 = false ∧ 400 ≤ 404 ∧
      (api_post sched404).attempts = 6 ∧
      ((api_post sched404).attempts == 1) = false := by
  refine ⟨rfl, by decide, rfl, rfl⟩

/-! ## The rule table and `suggest_folder`

A Python `dict` preserves insertion order, so the rule table is an
insertion-ordered association list from domain-pattern strings to
folder ids.  Lookup (`domain in rules` / `rules[domain]`) finds the
(unique in a real dict, first in the list model) entry with that key. -/

/-- Python `s.startswith(p)`: `p`'s code points are a prefix of `s`'s. -/
def pyStartsWith (s p : String) : Bool := p.data.isPrefixOf s.data

/-- Python `s.endswith(p)`: `p`'s code points are a suffix of `s`'s. -/
def pyEndsWith (s p : String) : Bool := p.data.isSuffixOf s.data

/-- Python `s.lower()` (the program only lowercases ASCII command
letters and hostnames). -/
def pyLower (s : String) : String := ⟨s.data.map Char.toLower⟩

/-- Python `s.strip()`: drop leading and trailing whitespace. -/
def pyStrip (s : String) : String :=
  ⟨((s.data.dropWhile Char.isWhitespace).reverse.dropWhile Char.isWhitespace).reverse⟩

/-- The rule table: `Dict[str, int]`, insertion-ordered. -/
abbrev Rules := List (String × Int)

/-- `rules[k]` when `k in rules`, else `None`. -/
def rlookup (rules : Rules) (k : String) : Option Int :=
  (rules.find? (fun kv => kv.1 == k)).map (·.2)

/-- The suffix-rule test of `suggest_folder`'s loop body:
`k.startswith(".") and domain.endswith(k)`. -/
def suffMatch (domain : String) (kv : String × Int) : Bool :=
  pyStartsWith kv.1 "." && pyEndsWith domain kv.1

/-- `suggest_folder` (`main.py` lines 174–181): exact key first, then
the first (in table iteration order) suffix pattern the domain ends
with, else `None`. -/
def suggest_folder (domain : String) (rules : Rules) : Option Int :=
  match rlookup rules domain with
  | some v => some v
  | none => (rules.find? (suffMatch domain)).map (·.2)

/-- `rules[dom] = fid` — Python dict assignment: overwrite in place if
the key exists (keeping its position), else append at the end. -/
def dictSet (m : Rules) (k : String) (v : Int) : Rules :=
  if m.any (fun kv => kv.1 == k) then
    m.map (fun kv => if kv.1 == k then (kv.1, v) else kv)
  else m ++ [(k, v)]

/-- `rules.setdefault(dom, fid)`'s effect on the dict: insert only when
the key is absent; an existing mapping is never changed. -/
def dictSetdefault (m : Rules) (k : String) (v : Int) : Rules :=
  if m.any (fun kv => kv.1 == k) then m else m ++ [(k, v)]

theorem find?_eq_of_first {α : Type} (p : α → Bool) :
    ∀ (l : List α) (i : Nat) (x : α), l.get? i = some x → p x = true →
      (∀ j y, j < i → l.get? j = some y → p y = false) → l.find? p = some x := by
  intro l
  induction l with
  | nil => intro i x h; simp at h
  | cons a t ih =>
    intro i x hget hp hmin
    cases i with
    | zero =>
      simp at hget
      subst hget
      exact List.find?_cons_of_pos _ hp
    | succ m =>
      have ha : p a = false := hmin 0 a (Nat.succ_pos m) rfl
      rw [List.find?_cons_of_neg _ (by simp [ha])]
      exact ih m x (by simpa using hget) hp
        (fun j y hj hy => hmin (j + 1) y (Nat.succ_lt_succ hj) (by simpa using hy))

/-- C4.  For every domain `d` and rule table `R`: an exact key wins
regardless of any suffix rules also matching; with no exact match, the
result is the folder of the first suffix pattern (in table iteration
order) that `d` ends with, and `None` when no suffix pattern matches. -/
theorem suggest_folder_spec (d : String) (R : Rules) :
    (∀ v, rlookup R d = some v → suggest_folder d R = some v) ∧
      (rlookup R d = none → (∀ i kv, R.get? i = some kv → suffMatch d kv = false) →
        suggest_folder d R = none) ∧
      (rlookup R d = none → ∀ i kv, R.get? i = some kv → suffMatch d kv = true →
        (∀ j kv', j < i → R.get? j = some kv' → suffMatch d kv' = false) →
        suggest_folder d R = some kv.2) := by
  refine ⟨?_, ?_, ?_⟩
  · intro v hv
    unfold suggest_folder
    rw [hv]
  · intro hnone hall
    unfold suggest_folder
    rw [hnone]
    have : R.find? (suffMatch d) = none := by
      rw [List.find?_eq_none]
      intro kv hkv
      obtain ⟨i, hi⟩ := List.mem_iff_get?.mp hkv
      simp [hall i kv hi]
    rw [this]
    rfl
  · intro hnone i kv hget hm hmin
    unfold suggest_folder
    rw [hnone, find?_eq_of_first (suffMatch d) R i kv hget hm hmin]
    rfl

theorem rlookup_map_overwrite (k : String) (v : Int) :
    ∀ m : Rules, m.any (fun kv => kv.1 == k) = true →
      rlookup (m.map (fun kv => if kv.1 == k then (kv.1, v) else kv)) k = some v := by
  intro m
  induction m with
  | nil => intro h; simp at h
  | cons a t ih =>
    intro h
    by_cases ha : (a.1 == k) = true
    · unfold rlookup
      simp only [List.map_cons, if_pos ha]
      rw [List.find?_cons_of_pos _ (by simpa using ha)]
      simp
    · unfold rlookup
      simp only [List.map_cons, if_neg ha]
      rw [List.find?_cons_of_neg _ (by simpa using ha)]
      have ht : t.any (fun kv => kv.1 == k) = true := by
        rcases List.any_eq_true.mp h with ⟨kv, hmem, hk⟩
        rcases List.mem_cons.mp hmem with hmem | hmem
        · exact absurd (hmem ▸ hk) (by simpa using ha)
        · exact List.any_eq_true.mpr ⟨kv, hmem, hk⟩
      exact ih ht

theorem rlookup_append_single (k : String) (v : Int) (m : Rules)
    (h : m.find? (fun kv => kv.1 == k) = none) :
    rlookup (m ++ [(k, v)]) k = some v := by
  unfold rlookup
  rw [List.find?_append, h]
  simp

theorem rlookup_dictSet_self (m : Rules) (k : String) (v : Int) :
    rlookup (dictSet m k v) k = some v := by
  unfold dictSet
  by_cases h : m.any (fun kv => kv.1 == k) = true
  · rw [if_pos h]
    exact rlookup_map_overwrite k v m h
  · rw [if_neg h]
    refine rlookup_append_single k v m ?_
    rw [List.find?_eq_none]
    intro kv hkv hc
    exact h (List.any_eq_true.mpr ⟨kv, hkv, hc⟩)

theorem dictSetdefault_present (m : Rules) (k : String) (v w : Int)
    (h : rlookup m k = some w) : dictSetdefault m k v = m := by
  unfold dictSetdefault
  rw [if_pos]
  unfold rlookup at h
  rcases hf : m.find? (fun kv => kv.1 == k) with _ | kv₀
  · rw [hf] at h; simp at h
  · have := List.find?_some hf
    have hmem := List.mem_of_find?_eq_some hf
    exact List.any_eq_true.mpr ⟨kv₀, hmem, this⟩

theorem dictSetdefault_absent (m : Rules) (k : String) (v : Int)
    (h : rlookup m k = none) : rlookup (dictSetdefault m k v) k = some v := by
  unfold dictSetdefault
  have hf : m.find? (fun kv => kv.1 == k) = none := by
    rcases hf : m.find? (fun kv => kv.1 == k) with _ | kv₀
    · exact hf
    · unfold rlookup at h; rw [hf] at h; simp at h
  rw [if_neg]
  · exact rlookup_append_single k v m hf
  · intro hany
    rcases List.any_eq_true.mp hany with ⟨kv, hmem, hk⟩
    rw [List.find?_eq_none] at hf
    exact absurd hk (by simpa using hf kv hmem)

/-- Witness for C4 at concrete inputs: with
`R = {".com": 1, "a.com": 2}` the exact key `"a.com"` wins over the
earlier suffix rule `".com"`, and for `"x.com"` (no exact key) the
suffix rule fires. -/
theorem suggest_folder_spec_witness :
    suggest_folder "a.com" [(".com", 1), ("a.com", 2)] = some 2 ∧
      suggest_folder "x.com" [(".com", 1), ("a.com", 2)] = some 1 := by
  constructor
  · exact (suggest_folder_spec "a.com" [(".com", 1), ("a.com", 2)]).1 2 (by decide)
  · exact (suggest_folder_spec "x.com" [(".com", 1), ("a.com", 2)]).2.2 (by decide)
      0 (".com", 1) rfl (by decide) (by intro j kv' hj; omega)

/-! ## The interactive session (`main`, lines 238–312)

The per-item loop of `main`, embedded as a step function.  External
collaborators become parameters: the page of unread bookmarks
(`list_unread_bookmarks`, already filtered to `type == "bookmark"`
entries) is scripted as a list of pages, a new page per `while`
iteration, the server answering an empty page once the script is
exhausted; `input()` reads from a scripted list of lines (a run is
always supplied enough input; an exhausted script reads as a blank
line); and the outcome of the i-th `move_bookmark` call comes from an
oracle indexed by the move counter.  Domain extraction
(`domain_of` = `urlparse(url).netloc.lower()`, delegated to `urllib`)
is likewise a parameter of the environment, applied to the bookmark's
URL exactly where `main` applies it.

The trace records the observable effects the claims speak about:
the item presented at each iteration, a displayed suggestion, each
`move_bookmark` call, each `save_json(RULES_PATH, rules)` call, and the
diagnostic lines printed (`no suggestion`, `move failed`, `saved: …`,
`no domain; cannot save rule`, `invalid key`, `unknown command`,
`moved -> …`, `No unread bookmarks.`).
-/

/-- A catalog folder (`Folder` dataclass). -/
structure Folder where
  folder_id : Int
  title : String
deriving DecidableEq, Repr

/-- One unread bookmark, already filtered to `type == "bookmark"`. -/
structure Bookmark where
  bookmark_id : Int
  title : String
  url : String
deriving DecidableEq, Repr

/-- How one `move_bookmark` call (= one `api_post` to `/bookmarks/move`)
ends.  `exc` stands for a catchable `Exception` — which `api_post`
never raises (its failure is `raise SystemExit`, see `api_post` above,
whose result type has no other error) — and `fatal` for `SystemExit`
after retry exhaustion, which `except Exception` does NOT catch
(`SystemExit` derives from `BaseException`, not `Exception`). -/
inductive MoveOutcome where
  | ok
  | exc
  | fatal
deriving DecidableEq, Repr

/-- The bridge from the `api_post` model to the session's move oracle:
a move call either returns (ok) or raises `SystemExit` (fatal). -/
def moveOutcomeOfRun (r : ApiRun) : MoveOutcome :=
  match r.result with
  | .ok _ => .ok
  | .error _ => .fatal

/-- Observable events of a session run, in order. -/
inductive Ev where
  | present (bid : Int)
  | suggestShown (title : String)
  | moveCall (bid : Int) (fid : Int)
  | saveRules
  | report (msg : String)
deriving DecidableEq, Repr

/-- `build_keymap` (`main.py` lines 206–207):
`{str(i+1): folders[i] for i in range(min(max_keys, len(folders)))}`. -/
def build_keymap (folders : List Folder) (maxKeys : Nat) : List (String × Folder) :=
  (List.range (min maxKeys folders.length)).map
    (fun i => (toString (i + 1), folders.getD i ⟨0, ""⟩))

/-- `pick_folder_name` (`main.py` lines 210–214). -/
def pick_folder_name (folders : List Folder) (fid : Int) : Option String :=
  (folders.find? (fun f => f.folder_id == fid)).map (·.title)

/-- `keymap[k]` / `k in keymap`. -/
def kmLookup (km : List (String × Folder)) (k : String) : Option Folder :=
  (km.find? (fun kv => kv.1 == k)).map (·.2)

/-- Python truthiness of an `Optional[int]`: `None` and `0` are falsy
(the session tests `if suggested_id` / `if not suggested_id`). -/
def truthyInt : Option Int → Bool
  | none => false
  | some n => n != 0

/-- Python truthiness of an `Optional[str]`: `None` and `""` are falsy
(the session tests `if sug_name`). -/
def truthyStr : Option String → Bool
  | none => false
  | some s => s != ""

/-- Python `str(x)` of an `Optional[str]` interpolated into an f-string
(`None` prints as `"None"`). -/
def strOfOpt : Option String → String
  | none => "None"
  | some s => s

/-- The session's external collaborators. -/
structure Env where
  folders : List Folder
  dom_of : String → String
  moveRes : Nat → MoveOutcome

/-- The mutable state the item loop threads: the rule table, the
remaining scripted input lines, and how many moves were issued. -/
structure LoopSt where
  rules : Rules
  inputs : List String
  movesMade : Nat
deriving Repr

/-- How processing one item ends: fall through to the next item of the
page, return from `main` (the `q` command), or propagate `SystemExit`. -/
inductive ItemStep where
  | nextItem
  | quit
  | abort
deriving DecidableEq, Repr

/-- What processing one item produces: the updated state, the events of
this iteration, and how it ended. -/
structure ItemOut where
  st : LoopSt
  newEvents : List Ev
  step : ItemStep

/-- `input()`: consume the next scripted line (blank at end of script). -/
def nextInput : List String → String × List String
  | [] => ("", [])
  | s :: rest => (s, rest)

/-- The suggestion computed for an item:
`suggest_folder(dom, rules) if dom else None` (`main.py` line 253). -/
def itemSuggestion (env : Env) (rules : Rules) (b : Bookmark) : Option Int :=
  if env.dom_of b.url != "" then suggest_folder (env.dom_of b.url) rules else none

/-- The suggestion title for display:
`pick_folder_name(folders, suggested_id) if suggested_id else None`
(`main.py` line 254) — note the truthiness test on the id. -/
def itemSugName (env : Env) (rules : Rules) (b : Bookmark) : Option String :=
  if truthyInt (itemSuggestion env rules b) then
    pick_folder_name env.folders ((itemSuggestion env rules b).getD 0)
  else none

/-- The body of `for b in items:` (`main.py` lines 247–310) for one
item: present it, read a command, dispatch. -/
def processItem (env : Env) (st : LoopSt) (b : Bookmark) : ItemOut :=
  let keymap := build_keymap env.folders 9
  let bid := b.bookmark_id
  let dom := env.dom_of b.url
  let suggested_id := itemSuggestion env st.rules b
  let sug_name := itemSugName env st.rules b
  let ev0 := Ev.present bid ::
    (if truthyStr sug_name then [Ev.suggestShown (strOfOpt sug_name)] else [])
  let (raw, inputs) := nextInput st.inputs
  let cmd := pyLower (pyStrip raw)
  if cmd == "q" then
    ⟨⟨st.rules, inputs, st.movesMade⟩, ev0 ++ [Ev.saveRules], .quit⟩
  else if cmd == "n" || cmd == "" then
    ⟨⟨st.rules, inputs, st.movesMade⟩, ev0, .nextItem⟩
  else if cmd == "a" then
    if !truthyInt suggested_id then
      ⟨⟨st.rules, inputs, st.movesMade⟩, ev0 ++ [Ev.report "no suggestion"], .nextItem⟩
    else
      let sid := suggested_id.getD 0
      match env.moveRes st.movesMade with
      | .ok =>
        ⟨⟨st.rules, inputs, st.movesMade + 1⟩,
          ev0 ++ [Ev.moveCall bid sid, Ev.report ("moved -> " ++ strOfOpt sug_name)],
          .nextItem⟩
      | .exc =>
        ⟨⟨st.rules, inputs, st.movesMade + 1⟩,
          ev0 ++ [Ev.moveCall bid sid, Ev.report "move failed"], .nextItem⟩
      | .fatal =>
        ⟨⟨st.rules, inputs, st.movesMade + 1⟩, ev0 ++ [Ev.moveCall bid sid], .abort⟩
  else if cmd == "s" then
    if dom == "" then
      ⟨⟨st.rules, inputs, st.movesMade⟩,
        ev0 ++ [Ev.report "no domain; cannot save rule"], .nextItem⟩
    else
      let (kraw, inputs2) := nextInput inputs
      let k := pyStrip kraw
      match kmLookup keymap k with
      | none =>
        ⟨⟨st.rules, inputs2, st.movesMade⟩, ev0 ++ [Ev.report "invalid key"], .nextItem⟩
      | some f =>
        ⟨⟨dictSet st.rules dom f.folder_id, inputs2, st.movesMade⟩,
          ev0 ++ [Ev.saveRules, Ev.report ("saved: " ++ dom ++ " -> " ++ f.title)],
          .nextItem⟩
  else
    match kmLookup keymap cmd with
    | some f =>
      match env.moveRes st.movesMade with
      | .ok =>
        ⟨⟨if dom != "" then dictSetdefault st.rules dom f.folder_id else st.rules,
            inputs, st.movesMade + 1⟩,
          ev0 ++ [Ev.moveCall bid f.folder_id, Ev.report ("moved -> " ++ f.title)],
          .nextItem⟩
      | .exc =>
        ⟨⟨st.rules, inputs, st.movesMade + 1⟩,
          ev0 ++ [Ev.moveCall bid f.folder_id, Ev.report "move failed"], .nextItem⟩
      | .fatal =>
        ⟨⟨st.rules, inputs, st.movesMade + 1⟩,
          ev0 ++ [Ev.moveCall bid f.folder_id], .abort⟩
    | none =>
      ⟨⟨st.rules, inputs, st.movesMade⟩, ev0 ++ [Ev.report "unknown command"], .nextItem⟩

/-- `for b in items:` — process the page until it is exhausted or an
item returns/raises. -/
def runItems (env : Env) (st : LoopSt) : List Bookmark → LoopSt × List Ev × ItemStep
  | [] => (st, [], .nextItem)
  | b :: rest =>
    let o := processItem env st b
    match o.step with
    | .nextItem =>
      let (st2, evs, stp) := runItems env o.st rest
      (st2, o.newEvents ++ evs, stp)
    | .quit => (o.st, o.newEvents, .quit)
    | .abort => (o.st, o.newEvents, .abort)

/-- How the whole run ends: a clean return from `main`, or `SystemExit`
propagating out of it. -/
inductive RunEnd where
  | finished
  | aborted
deriving DecidableEq, Repr

/-- The `while True:` loop of `main`: fetch a page; an empty page prints
`No unread bookmarks.`, breaks, and the `save_json` after the loop
(line 312) runs; an exhausted page script reads as the server returning
an empty page. -/
def runPages (env : Env) (st : LoopSt) : List (List Bookmark) → LoopSt × List Ev × RunEnd
  | [] => (st, [Ev.report "No unread bookmarks.", Ev.saveRules], .finished)
  | page :: rest =>
    if page.isEmpty then
      (st, [Ev.report "No unread bookmarks.", Ev.saveRules], .finished)
    else
      let (st2, evs, stp) := runItems env st page
      match stp with
      | .quit => (st2, evs, .finished)
      | .abort => (st2, evs, .aborted)
      | .nextItem =>
        let (st3, evs2, e) := runPages env st2 rest
        (st3, evs ++ evs2, e)

/-- The session of `main` (lines 238–312): the item/page loops from an
initial rule table (loaded from the rule file at startup), a page
script, an input script and a move oracle. -/
def runMain (env : Env) (rules0 : Rules) (pages : List (List Bookmark))
    (inputs : List String) : LoopSt × List Ev × RunEnd :=
  runPages env ⟨rules0, inputs, 0⟩ pages

/-! ## Session claim theorems -/

theorem kmLookup_build_keymap_digit {folders : List Folder} {c : String} {f : Folder}
    (h : kmLookup (build_keymap folders 9) c = some f) :
    c = "1" ∨ c = "2" ∨ c = "3" ∨ c = "4" ∨ c = "5" ∨ c = "6" ∨ c = "7" ∨ c = "8" ∨
      c = "9" := by
  unfold kmLookup at h
  rcases hf : (build_keymap folders 9).find? (fun kv => kv.1 == c) with _ | kv
  · rw [hf] at h; simp at h
  · have hmem := List.mem_of_find?_eq_some hf
    have hp := List.find?_some hf
    unfold build_keymap at hmem
    rw [List.mem_map] at hmem
    obtain ⟨i, hi, hkv⟩ := hmem
    rw [List.mem_range] at hi
    have hi9 : i < 9 := lt_of_lt_of_le hi (Nat.min_le_left _ _)
    have hc : c = toString (i + 1) := by
      have h1 : kv.1 = c := by simpa using hp
      rw [← h1, ← hkv]
    subst hc
    interval_cases i <;> decide

theorem digit_cmd_tests {c : String}
    (h : c = "1" ∨ c = "2" ∨ c = "3" ∨ c = "4" ∨ c = "5" ∨ c = "6" ∨ c = "7" ∨ c = "8" ∨
      c = "9") :
    (c == "q") = false ∧ (c == "n") = false ∧ (c == "") = false ∧ (c == "a") = false ∧
      (c == "s") = false := by
  rcases h with h | h | h | h | h | h | h | h | h <;> subst h <;>
    exact ⟨rfl, rfl, rfl, rfl, rfl⟩

/-- C6 (amended).  In the command loop, an input that is none of the
recognized commands (`q`, `n`, empty, `a`, `s`, a digit key bound in the
keymap) is reported as `unknown command` and the session ADVANCES to the
next item of the page (the item is skipped, not re-presented), with no
mutation of the rule table, no move issued and no rule-file write. -/
theorem unknown_command_advances (env : Env) (st : LoopSt) (b : Bookmark)
    (raw : String) (rest : List String)
    (hin : st.inputs = raw :: rest)
    (h1 : (pyLower (pyStrip raw) == "q") = false)
    (h2 : (pyLower (pyStrip raw) == "n") = false)
    (h3 : (pyLower (pyStrip raw) == "") = false)
    (h4 : (pyLower (pyStrip raw) == "a") = false)
    (h5 : (pyLower (pyStrip raw) == "s") = false)
    (h6 : kmLookup (build_keymap env.folders 9) (pyLower (pyStrip raw)) = none) :
    processItem env st b =
      ⟨⟨st.rules, rest, st.movesMade⟩,
        Ev.present b.bookmark_id ::
          (if truthyStr (itemSugName env st.rules b) then
            [Ev.suggestShown (strOfOpt (itemSugName env st.rules b))] else []) ++
          [Ev.report "unknown command"],
        .nextItem⟩ ∧
      ∀ items, runItems env st (b :: items) =
        ((runItems env ⟨st.rules, rest, st.movesMade⟩ items).1,
          (processItem env st b).newEvents ++
            (runItems env ⟨st.rules, rest, st.movesMade⟩ items).2.1,
          (runItems env ⟨st.rules, rest, st.movesMade⟩ items).2.2) := by
  have hproc : processItem env st b =
      ⟨⟨st.rules, rest, st.movesMade⟩,
        Ev.present b.bookmark_id ::
          (if truthyStr (itemSugName env st.rules b) then
            [Ev.suggestShown (strOfOpt (itemSugName env st.rules b))] else []) ++
          [Ev.report "unknown command"],
        .nextItem⟩ := by
    unfold processItem
    rw [hin]
    simp only [nextInput, h1, h2, h3, h4, h5, h6, Bool.false_eq_true, if_false,
      Bool.or_self, Bool.false_or]
  refine ⟨hproc, ?_⟩
  intro items
  show runItems env st (b :: items) = _
  rcases hri : runItems env ⟨st.rules, rest, st.movesMade⟩ items with ⟨st2, evsr⟩
  simp only [runItems, hproc, hri]

/-- Witness for C6's amended theorem: with one folder, input `x` on the
first of two items is unknown; processing it leaves the rules, advances
the script, and the page loop then continues with the second item. -/
def envC6 : Env := ⟨[⟨3, "Tech"⟩], fun _ => "t.com", fun _ => .ok⟩

theorem unknown_command_advances_witness :
    processItem envC6 ⟨[], ["x", "q"], 0⟩ ⟨1, "t1", "u1"⟩ =
      ⟨⟨[], ["q"], 0⟩,
        Ev.present 1 ::
          (if truthyStr (itemSugName envC6 [] ⟨1, "t1", "u1"⟩) then
            [Ev.suggestShown (strOfOpt (itemSugName envC6 [] ⟨1, "t1", "u1"⟩))] else []) ++
          [Ev.report "unknown command"],
        .nextItem⟩ ∧
      ∀ items, runItems envC6 ⟨[], ["x", "q"], 0⟩ (⟨1, "t1", "u1"⟩ :: items) =
        ((runItems envC6 ⟨[], ["q"], 0⟩ items).1,
          (processItem envC6 ⟨[], ["x", "q"], 0⟩ ⟨1, "t1", "u1"⟩).newEvents ++
            (runItems envC6 ⟨[], ["q"], 0⟩ items).2.1,
          (runItems envC6 ⟨[], ["q"], 0⟩ items).2.2) :=
  unknown_command_advances envC6 ⟨[], ["x", "q"], 0⟩ ⟨1, "t1", "u1"⟩ "x" ["q"]
    rfl rfl rfl rfl rfl rfl rfl

/-- Counterexample to C6 as stated: a page of two items (ids 1 and 2)
and inputs `x` (unknown) then `q`.  The claim says the session remains
at the same item, presenting item 1 again; the trace instead shows the
present event following the `unknown command` report is item 2 — the
unknown command skipped item 1. -/
theorem unknown_command_counterexample :
    (runMain envC6 [] [[⟨1, "t1", "u1"⟩, ⟨2, "t2", "u2"⟩]] ["x", "q"]).2.1 =
      [Ev.present 1, Ev.report "unknown command", Ev.present 2, Ev.saveRules] ∧
      ((1 : Int) == 2) = false := by
  exact ⟨rfl, rfl⟩

/-- C5.  Recording a rule through the explicit `s` command overwrites
any existing mapping for the exact domain (`rules[dom] = …`), while the
implicit learn after a successful digit-key move
(`rules.setdefault(dom, …)`) sets the mapping only if the domain is
absent and never overwrites an existing mapping. -/
theorem record_rule_semantics (env : Env) (rules rules2 : Rules) (b : Bookmark)
    (mm mm2 : Nat) (kraw draw : String) (rest rest2 : List String) (f g : Folder)
    (hdom : (env.dom_of b.url == "") = false)
    (hk : kmLookup (build_keymap env.folders 9) (pyStrip kraw) = some f)
    (hd : kmLookup (build_keymap env.folders 9) (pyLower (pyStrip draw)) = some g)
    (hmv : env.moveRes mm2 = .ok) :
    (processItem env ⟨rules, "s" :: kraw :: rest, mm⟩ b).st.rules =
        dictSet rules (env.dom_of b.url) f.folder_id ∧
      rlookup (processItem env ⟨rules, "s" :: kraw :: rest, mm⟩ b).st.rules
          (env.dom_of b.url) = some f.folder_id ∧
      (processItem env ⟨rules2, draw :: rest2, mm2⟩ b).st.rules =
        dictSetdefault rules2 (env.dom_of b.url) g.folder_id ∧
      (∀ w, rlookup rules2 (env.dom_of b.url) = some w →
        (processItem env ⟨rules2, draw :: rest2, mm2⟩ b).st.rules = rules2) ∧
      (rlookup rules2 (env.dom_of b.url) = none →
        rlookup (processItem env ⟨rules2, draw :: rest2, mm2⟩ b).st.rules
            (env.dom_of b.url) = some g.folder_id) := by
  have c1 : pyLower (pyStrip "s") = "s" := rfl
  have d1 : (("s" : String) == "q") = false := rfl
  have d2 : (("s" : String) == "n") = false := rfl
  have d3 : (("s" : String) == "") = false := rfl
  have d4 : (("s" : String) == "a") = false := rfl
  have d5 : (("s" : String) == "s") = true := rfl
  have hs : (processItem env ⟨rules, "s" :: kraw :: rest, mm⟩ b).st.rules =
      dictSet rules (env.dom_of b.url) f.folder_id := by
    unfold processItem
    simp only [nextInput, c1, d1, d2, d3, d4, d5, hdom, hk, Bool.false_eq_true,
      Bool.or_false, if_false, if_true]
  have hdig := digit_cmd_tests (kmLookup_build_keymap_digit hd)
  have hbne : (env.dom_of b.url != "") = true := by
    simp only [bne, hdom, Bool.not_false]
  have hdr : (processItem env ⟨rules2, draw :: rest2, mm2⟩ b).st.rules =
      dictSetdefault rules2 (env.dom_of b.url) g.folder_id := by
    unfold processItem
    simp only [nextInput, hdig.1, hdig.2.1, hdig.2.2.1, hdig.2.2.2.1, hdig.2.2.2.2,
      hd, hmv, hbne, Bool.or_self, Bool.false_eq_true, if_false, if_true]
  refine ⟨hs, ?_, hdr, ?_, ?_⟩
  · rw [hs]
    exact rlookup_dictSet_self rules (env.dom_of b.url) f.folder_id
  · intro w hw
    rw [hdr]
    exact dictSetdefault_present rules2 (env.dom_of b.url) g.folder_id w hw
  · intro hnone
    rw [hdr]
    exact dictSetdefault_absent rules2 (env.dom_of b.url) g.folder_id hnone

/-- Witness for C5 at concrete inputs: folders Tech(3)/News(4), domain
`t.com`.  Explicit save with key `2` overwrites the existing rule
`t.com → 9` to `4`; a digit-1 move on a table that already maps
`t.com → 9` leaves it untouched, and on an empty table records
`t.com → 3`. -/
def envC5 : Env := ⟨[⟨3, "Tech"⟩, ⟨4, "News"⟩], fun _ => "t.com", fun _ => .ok⟩

theorem record_rule_semantics_witness :
    (processItem envC5 ⟨[("t.com", 9)], "s" :: "2" :: [], 0⟩ ⟨1, "t1", "u1"⟩).st.rules =
        dictSet [("t.com", 9)] (envC5.dom_of "u1") 4 ∧
      rlookup (processItem envC5 ⟨[("t.com", 9)], "s" :: "2" :: [], 0⟩
          ⟨1, "t1", "u1"⟩).st.rules (envC5.dom_of "u1") = some 4 ∧
      (processItem envC5 ⟨[("t.com", 9)], "1" :: [], 0⟩ ⟨1, "t1", "u1"⟩).st.rules =
        dictSetdefault [("t.com", 9)] (envC5.dom_of "u1") 3 ∧
      (∀ w, rlookup [("t.com", 9)] (envC5.dom_of "u1") = some w →
        (processItem envC5 ⟨[("t.com", 9)], "1" :: [], 0⟩ ⟨1, "t1", "u1"⟩).st.rules =
          [("t.com", 9)]) ∧
      (rlookup [("t.com", 9)] (envC5.dom_of "u1") = none →
        rlookup (processItem envC5 ⟨[("t.com", 9)], "1" :: [], 0⟩
            ⟨1, "t1", "u1"⟩).st.rules (envC5.dom_of "u1") = some 3) :=
  record_rule_semantics envC5 [("t.com", 9)] [("t.com", 9)] ⟨1, "t1", "u1"⟩ 0 0
    "2" "1" [] [] ⟨4, "News"⟩ ⟨3, "Tech"⟩ rfl rfl rfl rfl

/-- C9.  When domain extraction yields the empty string, the session
produces no suggestion for the item whatever the rule table holds (the
`if dom` guard skips `suggest_folder` entirely, so the table is not
consulted), displays none, the `s` command reports
`no domain; cannot save rule` and records nothing (no rule-file write),
and a successful digit-key move issues the move but records no implicit
rule. -/
theorem empty_domain_no_rule (env : Env) (rules : Rules) (b : Bookmark)
    (mm mm2 : Nat) (raw kraw : String) (rest rest2 : List String) (g : Folder)
    (hdom : env.dom_of b.url = "")
    (hd : kmLookup (build_keymap env.folders 9) (pyLower (pyStrip raw)) = some g)
    (hmv : env.moveRes mm2 = .ok) :
    (∀ R : Rules, itemSuggestion env R b = none) ∧
      itemSugName env rules b = none ∧
      processItem env ⟨rules, "s" :: kraw :: rest, mm⟩ b =
        ⟨⟨rules, kraw :: rest, mm⟩,
          [Ev.present b.bookmark_id, Ev.report "no domain; cannot save rule"],
          .nextItem⟩ ∧
      (processItem env ⟨rules, raw :: rest2, mm2⟩ b).st.rules = rules ∧
      (processItem env ⟨rules, raw :: rest2, mm2⟩ b).newEvents =
        [Ev.present b.bookmark_id, Ev.moveCall b.bookmark_id g.folder_id,
          Ev.report ("moved -> " ++ g.title)] := by
  have hsug : ∀ R : Rules, itemSuggestion env R b = none := by
    intro R
    unfold itemSuggestion
    simp [hdom]
  have hname : itemSugName env rules b = none := by
    unfold itemSugName
    simp [hsug rules, truthyInt]
  have hshow : truthyStr (itemSugName env rules b) = false := by
    rw [hname]; rfl
  have c1 : pyLower (pyStrip "s") = "s" := rfl
  have d1 : (("s" : String) == "q") = false := rfl
  have d2 : (("s" : String) == "n") = false := rfl
  have d3 : (("s" : String) == "") = false := rfl
  have d4 : (("s" : String) == "a") = false := rfl
  have d5 : (("s" : String) == "s") = true := rfl
  have hdq : (env.dom_of b.url == "") = true := by simp [hdom]
  refine ⟨hsug, hname, ?_, ?_, ?_⟩
  · unfold processItem
    simp only [nextInput, c1, d1, d2, d3, d4, d5, hdq, hshow, Bool.false_eq_true,
      Bool.or_false, if_false, if_true, List.singleton_append]
  · have hdig := digit_cmd_tests (kmLookup_build_keymap_digit hd)
    have hbne : (env.dom_of b.url != "") = false := by
      simp only [bne, hdq, Bool.not_true]
    unfold processItem
    simp only [nextInput, hdig.1, hdig.2.1, hdig.2.2.1, hdig.2.2.2.1, hdig.2.2.2.2,
      hd, hmv, hbne, hshow, Bool.or_self, Bool.false_eq_true, if_false,
      List.singleton_append]
  · have hdig := digit_cmd_tests (kmLookup_build_keymap_digit hd)
    have hbne : (env.dom_of b.url != "") = false := by
      simp only [bne, hdq, Bool.not_true]
    unfold processItem
    simp only [nextInput, hdig.1, hdig.2.1, hdig.2.2.1, hdig.2.2.2.1, hdig.2.2.2.2,
      hd, hmv, hbne, hshow, Bool.or_self, Bool.false_eq_true, if_false,
      List.singleton_append]

/-- Witness for C9: a bookmark whose URL yields domain `""` with one
folder Tech(3): `s` reports and records nothing; a `1`-key move issues
the move and learns nothing. -/
def envC9 : Env := ⟨[⟨3, "Tech"⟩], fun _ => "", fun _ => .ok⟩

theorem empty_domain_no_rule_witness :
    (∀ R : Rules, itemSuggestion envC9 R ⟨7, "t", "u"⟩ = none) ∧
      itemSugName envC9 [("", 5)] ⟨7, "t", "u"⟩ = none ∧
      processItem envC9 ⟨[("", 5)], "s" :: "1" :: [], 0⟩ ⟨7, "t", "u"⟩ =
        ⟨⟨[("", 5)], "1" :: [], 0⟩,
          [Ev.present 7, Ev.report "no domain; cannot save rule"], .nextItem⟩ ∧
      (processItem envC9 ⟨[("", 5)], "1" :: [], 0⟩ ⟨7, "t", "u"⟩).st.rules = [("", 5)] ∧
      (processItem envC9 ⟨[("", 5)], "1" :: [], 0⟩ ⟨7, "t", "u"⟩).newEvents =
        [Ev.present 7, Ev.moveCall 7 3, Ev.report ("moved -> " ++ "Tech")] :=
  empty_domain_no_rule envC9 [("", 5)] ⟨7, "t", "u"⟩ 0 0 "1" "1" [] [] ⟨3, "Tech"⟩
    rfl rfl rfl

/-- C10.  When the rule table maps the item's (non-empty) domain to
folder id 0, `suggest_folder` returns `some 0`, but the session treats
the item as having no suggestion: the display test
(`if suggested_id`) and the `a` command's test (`if not suggested_id`)
are Python truthiness tests, and `0` is falsy — so no suggestion is
shown and `a` reports `no suggestion` and issues no move. -/
theorem folder_id_zero_truthiness (env : Env) (rules : Rules) (b : Bookmark)
    (mm : Nat) (rest : List String)
    (hdom : (env.dom_of b.url == "") = false)
    (hz : rlookup rules (env.dom_of b.url) = some 0) :
    suggest_folder (env.dom_of b.url) rules = some 0 ∧
      itemSuggestion env rules b = some 0 ∧
      itemSugName env rules b = none ∧
      processItem env ⟨rules, "a" :: rest, mm⟩ b =
        ⟨⟨rules, rest, mm⟩, [Ev.present b.bookmark_id, Ev.report "no suggestion"],
          .nextItem⟩ := by
  have hsf : suggest_folder (env.dom_of b.url) rules = some 0 := by
    unfold suggest_folder
    rw [hz]
  have hbne : (env.dom_of b.url != "") = true := by
    simp only [bne, hdom, Bool.not_false]
  have hsug : itemSuggestion env rules b = some 0 := by
    unfold itemSuggestion
    rw [hbne, if_pos rfl, hsf]
  have htr : truthyInt (itemSuggestion env rules b) = false := by
    rw [hsug]; rfl
  have hname : itemSugName env rules b = none := by
    unfold itemSugName
    rw [htr]
    rfl
  have hshow : truthyStr (itemSugName env rules b) = false := by
    rw [hname]; rfl
  have c1 : pyLower (pyStrip "a") = "a" := rfl
  have d1 : (("a" : String) == "q") = false := rfl
  have d2 : (("a" : String) == "n") = false := rfl
  have d3 : (("a" : String) == "") = false := rfl
  have d4 : (("a" : String) == "a") = true := rfl
  refine ⟨hsf, hsug, hname, ?_⟩
  unfold processItem
  simp only [nextInput, c1, d1, d2, d3, d4, htr, hshow, Bool.false_eq_true,
    Bool.or_false, Bool.not_false, if_false, if_true, List.singleton_append]

/-- Witness for C10: rule `t.com → 0`; the suggestion exists as
`some 0` yet the item shows none and `a` reports `no suggestion`. -/
def envC10 : Env := ⟨[⟨3, "Tech"⟩], fun _ => "t.com", fun _ => .ok⟩

theorem folder_id_zero_truthiness_witness :
    suggest_folder (envC10.dom_of "u") [("t.com", 0)] = some 0 ∧
      itemSuggestion envC10 [("t.com", 0)] ⟨1, "t", "u"⟩ = some 0 ∧
      itemSugName envC10 [("t.com", 0)] ⟨1, "t", "u"⟩ = none ∧
      processItem envC10 ⟨[("t.com", 0)], "a" :: [], 0⟩ ⟨1, "t", "u"⟩ =
        ⟨⟨[("t.com", 0)], [], 0⟩, [Ev.present 1, Ev.report "no suggestion"],
          .nextItem⟩ :=
  folder_id_zero_truthiness envC10 [("t.com", 0)] ⟨1, "t", "u"⟩ 0 [] rfl rfl

/-! ## Persisting exactly once at termination (C7) -/

/-- The rule-file writes in a trace. -/
def isSaveEv : Ev → Bool
  | .saveRules => true
  | _ => false

/-- The diagnostic the `s` command prints alongside its rule-file
write (`saved: {dom} -> {title}`): each mid-session save is paired
with exactly one such report, so `countP isSaveEv - countP
isSavedReport` isolates the saves of the termination paths. -/
def isSavedReport : Ev → Bool
  | .report m => pyStartsWith m "saved"
  | _ => false

theorem pyStartsWith_saved_lit : pyStartsWith "saved: " "saved" = true := by decide

theorem pyStartsWith_append_left (a b : String)
    (h : pyStartsWith a "saved" = true) : pyStartsWith (a ++ b) "saved" = true := by
  simp only [pyStartsWith, List.isPrefixOf_iff_prefix] at h ⊢
  rw [String.data_append]
  exact h.trans (List.prefix_append _ _)

theorem pyStartsWith_moved (x : String) :
    pyStartsWith ("moved -> " ++ x) "saved" = false := by
  unfold pyStartsWith
  rw [String.data_append]
  rfl

theorem pyStartsWith_ns : pyStartsWith "no suggestion" "saved" = false := by decide

theorem pyStartsWith_mf : pyStartsWith "move failed" "saved" = false := by decide

theorem pyStartsWith_nd :
    pyStartsWith "no domain; cannot save rule" "saved" = false := by decide

theorem pyStartsWith_ik : pyStartsWith "invalid key" "saved" = false := by decide

theorem pyStartsWith_uc : pyStartsWith "unknown command" "saved" = false := by decide

theorem pyStartsWith_nu :
    pyStartsWith "No unread bookmarks." "saved" = false := by decide

theorem pyStartsWith_saved_full (a b : String) :
    pyStartsWith ("saved: " ++ a ++ " -> " ++ b) "saved" = true :=
  pyStartsWith_append_left _ _
    (pyStartsWith_append_left _ _ (pyStartsWith_append_left _ _ pyStartsWith_saved_lit))

theorem countP_if_sugg_save (c : Bool) (t : String) :
    (if c = true then [Ev.suggestShown t] else []).countP isSaveEv = 0 := by
  cases c <;> simp [isSaveEv]

theorem countP_if_sugg_rep (c : Bool) (t : String) :
    (if c = true then [Ev.suggestShown t] else []).countP isSavedReport = 0 := by
  cases c <;> simp [isSavedReport]

theorem getLast?_cons_append_singleton (a x : Ev) (l : List Ev) :
    (a :: (l ++ [x])).getLast? = some x := by
  induction l generalizing a with
  | nil => rfl
  | cons c t ih =>
    rw [List.cons_append, List.getLast?_cons_cons]
    exact ih c

theorem processItem_saves (env : Env) (st : LoopSt) (b : Bookmark) :
    ((processItem env st b).newEvents.countP isSaveEv =
      (processItem env st b).newEvents.countP isSavedReport +
        (if (processItem env st b).step = .quit then 1 else 0)) ∧
      ((processItem env st b).step = .quit →
        (processItem env st b).newEvents.getLast? = some .saveRules) := by
  rcases hni : nextInput st.inputs with ⟨raw, inputs⟩
  unfold processItem
  rw [hni]
  by_cases hq : (pyLower (pyStrip raw) == "q") = true
  · simp [hq, List.countP_append, List.countP_cons, countP_if_sugg_save,
      countP_if_sugg_rep, isSaveEv, isSavedReport, getLast?_cons_append_singleton]
  · rw [Bool.not_eq_true] at hq
    by_cases hn : (pyLower (pyStrip raw) == "n" || pyLower (pyStrip raw) == "") = true
    · simp [hq, hn, List.countP_cons, countP_if_sugg_save, countP_if_sugg_rep,
        isSaveEv, isSavedReport]
    · rw [Bool.not_eq_true] at hn
      by_cases ha : (pyLower (pyStrip raw) == "a") = true
      · by_cases ht : truthyInt (itemSuggestion env st.rules b) = true
        · rcases hmv : env.moveRes st.movesMade with _ | _ | _ <;>
            simp [hq, hn, ha, ht, hmv, List.countP_append, List.countP_cons,
              countP_if_sugg_save, countP_if_sugg_rep, isSaveEv, isSavedReport,
              pyStartsWith_moved, pyStartsWith_mf]
        · rw [Bool.not_eq_true] at ht
          simp [hq, hn, ha, ht, List.countP_append, List.countP_cons,
            countP_if_sugg_save, countP_if_sugg_rep, isSaveEv, isSavedReport,
            pyStartsWith_ns]
      · rw [Bool.not_eq_true] at ha
        by_cases hcs : (pyLower (pyStrip raw) == "s") = true
        · by_cases hdq : (env.dom_of b.url == "") = true
          · simp [hq, hn, ha, hcs, hdq, List.countP_append, List.countP_cons,
              countP_if_sugg_save, countP_if_sugg_rep, isSaveEv, isSavedReport,
              pyStartsWith_nd]
          · rw [Bool.not_eq_true] at hdq
            rcases hni2 : nextInput inputs with ⟨kraw, inputs2⟩
            rcases hkm : kmLookup (build_keymap env.folders 9) (pyStrip kraw) with _ | f
            · simp [hq, hn, ha, hcs, hdq, hni2, hkm, List.countP_append,
                List.countP_cons, countP_if_sugg_save, countP_if_sugg_rep, isSaveEv,
                isSavedReport, pyStartsWith_ik]
            · simp [hq, hn, ha, hcs, hdq, hni2, hkm, List.countP_append,
                List.countP_cons, countP_if_sugg_save, countP_if_sugg_rep, isSaveEv,
                isSavedReport, pyStartsWith_saved_full]
        · rw [Bool.not_eq_true] at hcs
          rcases hkm : kmLookup (build_keymap env.folders 9) (pyLower (pyStrip raw))
            with _ | f
          · simp [hq, hn, ha, hcs, hkm, List.countP_append, List.countP_cons,
              countP_if_sugg_save, countP_if_sugg_rep, isSaveEv, isSavedReport,
              pyStartsWith_uc]
          · rcases hmv : env.moveRes st.movesMade with _ | _ | _ <;>
              simp [hq, hn, ha, hcs, hkm, hmv, List.countP_append, List.countP_cons,
                countP_if_sugg_save, countP_if_sugg_rep, isSaveEv, isSavedReport,
                pyStartsWith_moved, pyStartsWith_mf]

theorem runItems_saves (env : Env) :
    ∀ (page : List Bookmark) (st : LoopSt),
      ((runItems env st page).2.1.countP isSaveEv =
        (runItems env st page).2.1.countP isSavedReport +
          (if (runItems env st page).2.2 = .quit then 1 else 0)) ∧
      ((runItems env st page).2.2 = .quit →
        (runItems env st page).2.1.getLast? = some .saveRules) := by
  intro page
  induction page with
  | nil => intro st; simp [runItems]
  | cons b rest ih =>
    intro st
    have hp := processItem_saves env st b
    rcases hpo : processItem env st b with ⟨ost, oev, ostep⟩
    rw [hpo] at hp
    simp only at hp
    cases ostep with
    | nextItem =>
      rcases hri : runItems env ost rest with ⟨st2, evs, stp⟩
      have hih := ih ost
      rw [hri] at hih
      simp only at hih
      simp only [runItems, hpo, hri]
      have h1 := hp.1
      simp only [reduceCtorEq, if_false, Nat.add_zero] at h1
      constructor
      · simp only [List.countP_append, h1, hih.1]
        omega
      · intro hqq
        have hl := hih.2 hqq
        simp [List.getLast?_append, hl]
    | quit =>
      simp only [runItems, hpo]
      exact ⟨by simpa using hp.1, fun _ => hp.2 rfl⟩
    | abort =>
      simp only [runItems, hpo]
      constructor
      · simpa using hp.1
      · intro hqq
        exact absurd hqq (by simp)

theorem runPages_saves (env : Env) :
    ∀ (pages : List (List Bookmark)) (st : LoopSt),
      ((runPages env st pages).2.2 = .finished →
        (runPages env st pages).2.1.countP isSaveEv =
          (runPages env st pages).2.1.countP isSavedReport + 1 ∧
        (runPages env st pages).2.1.getLast? = some .saveRules) ∧
      ((runPages env st pages).2.2 = .aborted →
        (runPages env st pages).2.1.countP isSaveEv =
          (runPages env st pages).2.1.countP isSavedReport) := by
  intro pages
  induction pages with
  | nil =>
    intro st
    constructor
    · intro _
      constructor
      · simp [runPages, List.countP_cons, isSaveEv, isSavedReport, pyStartsWith_nu]
      · simp [runPages]
    · intro hab
      simp [runPages] at hab
  | cons page rest ih =>
    intro st
    by_cases hpe : page.isEmpty = true
    · constructor
      · intro _
        constructor
        · simp [runPages, hpe, List.countP_cons, isSaveEv, isSavedReport,
            pyStartsWith_nu]
        · simp [runPages, hpe]
      · intro hab
        simp [runPages, hpe] at hab
    · have hitems := runItems_saves env page st
      rcases hri : runItems env st page with ⟨st2, evs, stp⟩
      rw [hri] at hitems
      simp only at hitems
      cases stp with
      | nextItem =>
        have hih := ih st2
        rcases hrp : runPages env st2 rest with ⟨st3, evs2, e2⟩
        rw [hrp] at hih
        simp only at hih
        have h1 := hitems.1
        simp only [reduceCtorEq, if_false, Nat.add_zero] at h1
        simp only [runPages, hpe, Bool.false_eq_true, if_false, hri, hrp]
        cases e2 with
        | finished =>
          constructor
          · intro _
            have h2 := hih.1 rfl
            constructor
            · simp only [List.countP_append, h1, h2.1]
              omega
            · simp [List.getLast?_append, h2.2]
          · intro hab
            simp at hab
        | aborted =>
          constructor
          · intro hfin
            simp at hfin
          · intro _
            have h2 := hih.2 rfl
            simp only [List.countP_append, h1, h2]
      | quit =>
        simp only [runPages, hpe, Bool.false_eq_true, if_false, hri]
        constructor
        · intro _
          exact ⟨by simpa using hitems.1, hitems.2 rfl⟩
        · intro hab
          simp at hab
      | abort =>
        simp only [runPages, hpe, Bool.false_eq_true, if_false, hri]
        constructor
        · intro hfin
          simp at hfin
        · intro _
          simpa using hitems.1

/-- C7.  Every terminating run of the session persists the rule table
exactly once at termination, on both termination paths (`q` command, or
an empty unread page on fetch): the rule-file writes in the trace
exceed the `s`-command writes (each of which is paired with its
`saved: …` report) by exactly one, and the final event of the run is
that terminal write. -/
theorem termination_saves_once (env : Env) (rules0 : Rules)
    (pages : List (List Bookmark)) (inputs : List String)
    (hf : (runMain env rules0 pages inputs).2.2 = .finished) :
    (runMain env rules0 pages inputs).2.1.countP isSaveEv =
      (runMain env rules0 pages inputs).2.1.countP isSavedReport + 1 ∧
    (runMain env rules0 pages inputs).2.1.getLast? = some .saveRules :=
  (runPages_saves env pages ⟨rules0, inputs, 0⟩).1 hf

/-- Witness for C7 at the spec's end-to-end scenario 3: the unread page
is empty on first fetch; the run terminates at once with exactly one
rule-file write, which is the last event. -/
def envC7 : Env := ⟨[⟨3, "Tech"⟩], fun _ => "t.com", fun _ => .ok⟩

theorem termination_saves_once_witness :
    (runMain envC7 [] [[]] ["x"]).2.1.countP isSaveEv =
      (runMain envC7 [] [[]] ["x"]).2.1.countP isSavedReport + 1 ∧
    (runMain envC7 [] [[]] ["x"]).2.1.getLast? = some .saveRules :=
  termination_saves_once envC7 [] [[]] ["x"] rfl


/-! ## Move failures and `SystemExit` (C3) -/

/-- The failing input for C3: one folder, an item whose domain has a
suffix rule, command `a`, and a move whose `api_post` attempts all fail
(retry exhaustion ends in `raise SystemExit`). -/
def envC3 : Env := ⟨[⟨3, "Tech"⟩], fun _ => "blog.example.com", fun _ => .fatal⟩

/-- C3 evaluated at the failing input.  The spec says a move failure is
caught, reported (`move failed: …`) and the session continues to the
next item; in the code the ONLY failure mode of `move_bookmark` is the
`SystemExit` that `api_post` raises on retry exhaustion (first
conjunct: the `api_post` model never produces a catchable exception),
and `SystemExit` derives from `BaseException`, which `except Exception`
does not catch — so the whole session aborts: the run ends `aborted`,
item 2 is never presented, no `move failed` report is printed, and no
terminal rule-file write happens.  The `except Exception` handler
around the move calls is unreachable. -/
theorem move_failure_aborts_session :
    (∀ sched : Nat → Outcome,
      (moveOutcomeOfRun (api_post sched) == MoveOutcome.exc) = false) ∧
      (runMain envC3 [(".example.com", 3)] [[⟨1, "t1", "u1"⟩, ⟨2, "t2", "u2"⟩]]
          ["a", "n"]).2.2 = .aborted ∧
      (runMain envC3 [(".example.com", 3)] [[⟨1, "t1", "u1"⟩, ⟨2, "t2", "u2"⟩]]
          ["a", "n"]).2.1 =
        [Ev.present 1, Ev.suggestShown "Tech", Ev.moveCall 1 3] ∧
      (runMain envC3 [(".example.com", 3)] [[⟨1, "t1", "u1"⟩, ⟨2, "t2", "u2"⟩]]
          ["a", "n"]).2.1.countP (fun e => e == Ev.report "move failed") = 0 ∧
      (runMain envC3 [(".example.com", 3)] [[⟨1, "t1", "u1"⟩, ⟨2, "t2", "u2"⟩]]
          ["a", "n"]).2.1.countP isSaveEv = 0 := by
  refine ⟨?_, rfl, rfl, rfl, rfl⟩
  intro sched
  unfold moveOutcomeOfRun
  cases (api_post sched).result <;> rfl

/-! ## Rule-file persistence round trip (C8)

`save_json` / `load_json` delegate character-level serialization to the
Python stdlib `json` module, so the store is modelled as holding the
parsed JSON document of each file; the repository's own contribution —
the temp-file-and-rename write, the existence check with a default on
read, and the fact that a `Dict[str, int]` is exactly representable as
a JSON object — is what the round trip exercises. -/

/-- Decoding the JSON object read back from the rule file as the
`Dict[str, int]` the program uses. -/
def asRulesList : List (String × JVal) → Option Rules
  | [] => some []
  | (k, .jint n) :: rest => (asRulesList rest).map (fun r => (k, n) :: r)
  | _ => none

/-- The typed view of `json.load`'s result as a rule table. -/
def asRules : JVal → Option Rules
  | .jobj fs => asRulesList fs
  | _ => none

/-- The JSON document `json.dump` writes for a rule table. -/
def dumpRules (m : Rules) : JVal :=
  .jobj (m.map (fun kv => (kv.1, .jint kv.2)))

/-- The configuration directory as a name-indexed store of parsed JSON
documents. -/
abbrev FileStore := String → Option JVal

/-- `save_json` (`main.py` lines 84–91): write the document to
`path + ".tmp"`, then `tmp.replace(path)` renames it over `path`
atomically (the best-effort chmod of `ensure_private_file` is invisible
at this level). -/
def save_json (st : FileStore) (path : String) (v : JVal) : FileStore :=
  fun q => if q == path then some v else if q == path ++ ".tmp" then none else st q

/-- `load_json` (`main.py` lines 77–81): the parsed file at `path`, or
`default` when the file does not exist. -/
def load_json (st : FileStore) (path : String) (default : JVal) : JVal :=
  (st path).getD default

theorem asRulesList_dump (m : Rules) :
    asRulesList (m.map (fun kv => (kv.1, .jint kv.2))) = some m := by
  induction m with
  | nil => rfl
  | cons a t ih => simp [asRulesList, ih]

/-- C8.  Persisting a rule table with `save_json` and reloading it with
`load_json` yields an identical mapping: for every store, path and
finite mapping from domain-pattern strings to integer folder ids, the
document read back decodes to exactly the original table. -/
theorem rules_roundtrip (st : FileStore) (path : String) (m : Rules) :
    asRules (load_json (save_json st path (dumpRules m)) path (.jobj [])) = some m := by
  unfold load_json save_json
  simp only [beq_self_eq_true, if_true, Option.getD_some]
  unfold asRules dumpRules
  exact asRulesList_dump m


end InstaOrg
